import Mathlib

/-!
Verification of the historical token price oracle backend.

The development shallowly embeds the price-resolution and interpolation
engine of the repository: the interpolation service
(`interpolationService.js`), the resolution orchestrator
(`oracleService.js`), the batch collection processor (`queueService.js`),
the Redis result cache helpers (`config/redis.js`), and the Mongo model
statics (`TokenPrice`).  JavaScript numbers are modelled as exact
rationals (`ℚ`), unix timestamps as `ℤ`, and the Mongo collection as a
list of documents.  Fallible effects (the external fetch, the
interpolation write-back) are made explicit parameters of the embedding.
-/

namespace Oracle

/-- ASCII lowercasing, modelling JavaScript's `toLowerCase()` as used on
token addresses and network names. -/
def toLower (s : String) : String := ⟨s.data.map Char.toLower⟩

/-- One document of the `token_prices` collection (`TokenPrice` model):
a price observation keyed by (token, network, timestamp), carrying its
source tag and confidence score. -/
structure PricePoint where
  token : String
  network : String
  timestamp : Int
  price : ℚ
  source : String
  confidence : ℚ
deriving Repr, DecidableEq

/-- `interpolationService.interpolatePrice`: the maximal bracket gap
(7 days in seconds) beyond which interpolation is refused. -/
def maxGapSeconds : Int := 7 * 24 * 60 * 60

/-- `parseFloat(x.toFixed(8))`: rounding to 8 decimal places. -/
def round8 (x : ℚ) : ℚ := (round (x * 100000000) : ℚ) / 100000000

/-- The interpolation weight used by `calculateInterpolation`:
`(tsTarget - tsBefore) / (tsAfter - tsBefore)`. -/
def ratioOf (b a : PricePoint) (t : Int) : ℚ :=
  ((t - b.timestamp : ℤ) : ℚ) / ((a.timestamp - b.timestamp : ℤ) : ℚ)

/-- `interpolationService.calculateConfidence`: base 0.8, sequentially
scaled down for price volatility, edge proximity of the weight, and the
time gap, then clamped to [0.1, 1]. -/
def calculateConfidence (b a : PricePoint) (r : ℚ) : ℚ :=
  let c0 : ℚ := 8/10
  let priceChange : ℚ := |a.price - b.price| / b.price
  let c1 : ℚ := if priceChange > 1/2 then c0 * (7/10)
    else if priceChange > 1/5 then c0 * (85/100) else c0
  let c2 : ℚ := if r < 1/10 ∨ r > 9/10 then c1 * (9/10) else c1
  let hoursGap : ℚ := ((a.timestamp - b.timestamp : ℤ) : ℚ) / 3600
  let c3 : ℚ := if hoursGap > 48 then c2 * (8/10)
    else if hoursGap > 24 then c2 * (9/10) else c2
  max (1/10) (min 1 c3)

/-- The (price, confidence) pair produced by
`interpolationService.calculateInterpolation`. -/
structure InterpolationData where
  price : ℚ
  confidence : ℚ
deriving Repr, DecidableEq

/-- `interpolationService.calculateInterpolation`: linear interpolation
between the bracket prices, rounded to 8 decimals, with a confidence
score. -/
def calculateInterpolation (b a : PricePoint) (t : Int) : InterpolationData :=
  let r := ratioOf b a t
  let interpolatedPrice := b.price + r * (a.price - b.price)
  { price := round8 interpolatedPrice
    confidence := calculateConfidence b a r }

/-- The price-change factor and edge factor of `calculateConfidence`,
as a product over the raw prices: used to state the spec-side factored
form of the confidence score. -/
def confBase (pb pa r : ℚ) : ℚ :=
  (8/10) *
    (if |pa - pb| / pb > 1/2 then (7/10)
     else if |pa - pb| / pb > 1/5 then (85/100) else 1) *
    (if r < 1/10 ∨ r > 9/10 then (9/10) else 1)

/-- The time-gap factor of `calculateConfidence` as a function of the
bracket gap in seconds. -/
def gapFactor (g : Int) : ℚ :=
  if ((g : ℤ) : ℚ) / 3600 > 48 then (8/10)
  else if ((g : ℤ) : ℚ) / 3600 > 24 then (9/10) else 1

/-- The unrounded linear interpolation value
`beforePrice + ratio * (afterPrice - beforePrice)`. -/
def rawInterpolation (b a : PricePoint) (t : Int) : ℚ :=
  b.price + ratioOf b a t * (a.price - b.price)

/-- Does a stored document match the (token, network) key of a query?
Queries lowercase their arguments (`token.toLowerCase()`), stored fields
are compared as stored. -/
def keyMatches (p : PricePoint) (token network : String) : Bool :=
  p.token == toLower token && p.network == toLower network

/-- `TokenPrice.findOne` by exact (token, network, timestamp), as used by
the orchestrator's store tier and the batch processor's skip check. -/
def findOneExact (store : List PricePoint) (token network : String) (t : Int) :
    Option PricePoint :=
  store.find? (fun p => keyMatches p token network && decide (p.timestamp = t))

/-- Of two candidate documents, keep the one with the later timestamp
(`sort({ timestamp: -1 })` with `findOne` keeps the maximum). -/
def pickLater (x : Option PricePoint) (p : PricePoint) : Option PricePoint :=
  match x with
  | none => some p
  | some q => if q.timestamp < p.timestamp then some p else some q

/-- Of two candidate documents, keep the one with the earlier timestamp
(`sort({ timestamp: 1 })` with `findOne` keeps the minimum). -/
def pickEarlier (x : Option PricePoint) (p : PricePoint) : Option PricePoint :=
  match x with
  | none => some p
  | some q => if p.timestamp < q.timestamp then some p else some q

/-- Nearest stored document at or before the target timestamp
(descending single-direction query). -/
def findNearestBefore (store : List PricePoint) (token network : String) (t : Int) :
    Option PricePoint :=
  List.foldl pickLater none
    (store.filter (fun p => keyMatches p token network && decide (p.timestamp ≤ t)))

/-- Nearest stored document at or after the target timestamp
(ascending single-direction query). -/
def findNearestAfter (store : List PricePoint) (token network : String) (t : Int) :
    Option PricePoint :=
  List.foldl pickEarlier none
    (store.filter (fun p => keyMatches p token network && decide (t ≤ p.timestamp)))

/-- `TokenPrice.findNearestPrices`: the pair of bracketing documents
around the target timestamp, either possibly absent. -/
def findNearestPrices (store : List PricePoint) (token network : String) (t : Int) :
    Option PricePoint × Option PricePoint :=
  (findNearestBefore store token network t, findNearestAfter store token network t)

/-- The result object returned by `interpolationService.interpolatePrice`
on success. -/
structure InterpolationResult where
  price : ℚ
  confidence : ℚ
  beforePrice : ℚ
  afterPrice : ℚ
  beforeTimestamp : Int
  afterTimestamp : Int
deriving Repr, DecidableEq

/-- The `TokenPrice` document persisted by the interpolation service
before it returns. -/
def interpolatedPoint (token network : String) (t : Int) (d : InterpolationData) :
    PricePoint :=
  { token := toLower token, network := toLower network, timestamp := t
    price := d.price, source := "interpolated", confidence := d.confidence }

/-- Outcome of `interpolationService.interpolatePrice`: either a thrown
error (re-raised by its catch block), or an optional result together
with the store after the write-back of the interpolated point. -/
inductive InterpOutcome where
  | failure (msg : String)
  | success (res : Option (InterpolationResult × List PricePoint))
deriving Repr, DecidableEq

/-- `interpolationService.interpolatePrice`: query the bracketing points;
absent bracket or a gap above 7 days yields no result; otherwise compute
the interpolation, persist the interpolated point (`saveFails` models the
database save throwing, which the service re-raises), and return it. -/
def interpolatePrice (store : List PricePoint) (saveFails : Bool)
    (token network : String) (t : Int) : InterpOutcome :=
  match findNearestPrices store token network t with
  | (some b, some a) =>
    if a.timestamp - b.timestamp > maxGapSeconds then InterpOutcome.success none
    else
      let d := calculateInterpolation b a t
      if saveFails then InterpOutcome.failure "interpolation save failed"
      else InterpOutcome.success (some
        ({ price := d.price, confidence := d.confidence
           beforePrice := b.price, afterPrice := a.price
           beforeTimestamp := b.timestamp, afterTimestamp := a.timestamp },
         store ++ [interpolatedPoint token network t d]))
  | (_, _) => InterpOutcome.success none

/-- The resolved-price payload returned by
`oracleService.getTokenPriceAtTimestamp` (and stored in the Redis
cache). -/
structure PriceResult where
  token : String
  network : String
  timestamp : Int
  price : ℚ
  source : String
  confidence : ℚ
deriving Repr, DecidableEq

/-- The Redis result cache, as an association list from cache keys to
cached payloads.  `redisConnection.get`: first binding wins. -/
def cacheGet (cache : List (String × PriceResult)) (k : String) : Option PriceResult :=
  (cache.find? (fun e => e.1 == k)).map Prod.snd

/-- `redisConnection.set`: a later binding shadows an earlier one. -/
def cacheSet (cache : List (String × PriceResult)) (k : String) (v : PriceResult) :
    List (String × PriceResult) :=
  (k, v) :: cache

/-- `redisConnection.generatePriceKey`. -/
def generatePriceKey (token network : String) (t : Int) : String :=
  "price:" ++ token ++ ":" ++ network ++ ":" ++ toString t

/-- Behaviour of the external fetch tier (`fetchPriceFromAlchemy`) for
the requested key: a thrown error (caught and logged by the
orchestrator), no data, or a fetched price.  The stub's arithmetic is
randomised, so the fetch is an environment parameter of the embedding. -/
inductive FetchOutcome where
  | fetchError (msg : String)
  | noData
  | fetched (price : ℚ)
deriving Repr, DecidableEq

/-- Errors that `getTokenPriceAtTimestamp` can propagate to its caller:
the final no-data error of tier 5, or an internal error re-raised by a
tier that is not shielded by a catch block. -/
inductive OracleError where
  | noPriceData (token network : String) (timestamp : Int)
  | internalError (msg : String)
deriving Repr, DecidableEq

/-- Result of one resolution: a payload or a propagated error. -/
inductive ResolveResult where
  | ok (r : PriceResult)
  | failure (e : OracleError)
deriving Repr, DecidableEq

/-- The environment of one `getTokenPriceAtTimestamp` call:
whether `this.cacheClient` is available, the cache and store contents,
the external fetch behaviour, and whether the interpolation write-back
save throws. -/
structure Env where
  cacheEnabled : Bool
  cache : List (String × PriceResult)
  store : List PricePoint
  fetch : FetchOutcome
  interpSaveFails : Bool
deriving Repr, DecidableEq

/-- Observable outcome of one `getTokenPriceAtTimestamp` call: the
returned payload or propagated error, the store and cache afterwards,
and how many times the external fetcher was invoked for this key. -/
structure ResolveOutcome where
  result : ResolveResult
  store : List PricePoint
  cache : List (String × PriceResult)
  fetchCalls : Nat
deriving Repr, DecidableEq

/-- `oracleService.getTokenPriceAtTimestamp`: tiered resolution.
Tier 1 Redis cache (source rewritten to "cache"); tier 2 exact store
lookup (confidence `existingPrice.confidence || 1`, result cached with
full TTL); tier 3 external fetch (on success persist source "alchemy"
confidence 1 and cache; a thrown fetch error is caught and logged);
tier 4 interpolation (result cached with half TTL; an error thrown
inside the interpolation service is NOT caught and propagates);
tier 5 the no-price-data error. -/
def resolvePrice (env : Env) (token network : String) (timestamp : Int) :
    ResolveOutcome :=
  let cacheKey := generatePriceKey token network timestamp
  match (if env.cacheEnabled then cacheGet env.cache cacheKey else none) with
  | some cached =>
      { result := ResolveResult.ok { cached with source := "cache" }
        store := env.store, cache := env.cache, fetchCalls := 0 }
  | none =>
    match findOneExact env.store token network timestamp with
    | some p =>
        let res : PriceResult :=
          { token := p.token, network := p.network, timestamp := p.timestamp
            price := p.price, source := p.source
            confidence := if p.confidence = 0 then 1 else p.confidence }
        { result := ResolveResult.ok res, store := env.store
          cache := if env.cacheEnabled then cacheSet env.cache cacheKey res else env.cache
          fetchCalls := 0 }
    | none =>
      match env.fetch with
      | FetchOutcome.fetched price =>
          let newPoint : PricePoint :=
            { token := toLower token, network := toLower network
              timestamp := timestamp, price := price
              source := "alchemy", confidence := 1 }
          let res : PriceResult :=
            { token := toLower token, network := toLower network
              timestamp := timestamp, price := price
              source := "alchemy", confidence := 1 }
          { result := ResolveResult.ok res, store := env.store ++ [newPoint]
            cache := if env.cacheEnabled then cacheSet env.cache cacheKey res else env.cache
            fetchCalls := 1 }
      | _ =>
        match interpolatePrice env.store env.interpSaveFails token network timestamp with
        | InterpOutcome.failure msg =>
            { result := ResolveResult.failure (OracleError.internalError msg)
              store := env.store, cache := env.cache, fetchCalls := 1 }
        | InterpOutcome.success (some (ir, store')) =>
            let res : PriceResult :=
              { token := toLower token, network := toLower network
                timestamp := timestamp, price := ir.price
                source := "interpolated", confidence := ir.confidence }
            { result := ResolveResult.ok res, store := store'
              cache := if env.cacheEnabled then cacheSet env.cache cacheKey res else env.cache
              fetchCalls := 1 }
        | InterpOutcome.success none =>
            { result := ResolveResult.failure
                (OracleError.noPriceData token network timestamp)
              store := env.store, cache := env.cache, fetchCalls := 1 }

/-- Two resolution results agree as answers when they carry the same
price and confidence (source tags may differ), or both are errors. -/
def sameAnswer : ResolveResult → ResolveResult → Prop
  | ResolveResult.ok a, ResolveResult.ok b => a.price = b.price ∧ a.confidence = b.confidence
  | ResolveResult.failure _, ResolveResult.failure _ => True
  | _, _ => False

/-- Coherence of the cache at one key: a cached payload must agree, on
price and on the confidence the store tier would report, with an
existing exact store record for that key.  Every cache entry the
orchestrator itself writes is of this shape. -/
def cacheCoherent (env : Env) (token network : String) (t : Int) : Bool :=
  match cacheGet env.cache (generatePriceKey token network t) with
  | none => true
  | some res =>
    match findOneExact env.store token network t with
    | none => false
    | some p =>
        res.price == p.price &&
        res.confidence == (if p.confidence = 0 then 1 else p.confidence)

/-- `alchemyConnection.getTokenCreationTimestamp` seen from the
orchestrator: the collaborator throws, finds a timestamp, or returns
null (absent). -/
inductive AlchemyLookup where
  | failure (msg : String)
  | found (t : Int)
  | absent
deriving Repr, DecidableEq

/-- Default creation timestamp used when the metadata collaborator
throws: Ethereum launch, Jul 30 2015. -/
def ethereumLaunchTimestamp : Int := 1438269960

/-- Default creation timestamp used when the metadata collaborator
throws, for every non-ethereum network: May 30 2020 (Polygon). -/
def polygonDefaultTimestamp : Int := 1590824707

/-- `oracleService.getTokenCreationTimestamp`: return whatever the
collaborator yields (including null); only a THROWN collaborator error
falls back to the hardcoded per-network default. -/
def getTokenCreationTimestamp (lookup : AlchemyLookup) (network : String) :
    Option Int :=
  match lookup with
  | AlchemyLookup.found t => some t
  | AlchemyLookup.absent => none
  | AlchemyLookup.failure _ =>
      some (if toLower network == "ethereum" then ethereumLaunchTimestamp
            else polygonDefaultTimestamp)

/-- `moment.unix(ts).startOf(day)`: floor to the day boundary. -/
def startOfDay (t : Int) : Int := 86400 * (Int.fdiv t 86400)

/-- `oracleService.generateDailyTimestamps`: one timestamp per day from
the start of the creation day while still at or before now. -/
def generateDailyTimestamps (startTimestamp now : Int) : List Int :=
  let start := startOfDay startTimestamp
  if start ≤ now then
    (List.range ((Int.fdiv (now - start) 86400).toNat + 1)).map
      (fun i => start + 86400 * (i : Int))
  else []

/-- The data of the CollectionJob enqueued by
`queueService.addPriceCollectionJob`. -/
structure CollectionJobData where
  token : String
  network : String
  timestamps : List Int
  creationTimestamp : Int
deriving Repr, DecidableEq

/-- Outcome of a schedule request: a queued job or a thrown error. -/
inductive ScheduleOutcome where
  | jobQueued (job : CollectionJobData)
  | scheduleError (msg : String)
deriving Repr, DecidableEq

/-- `oracleService.scheduleHistoricalDataCollection`: resolve the
creation timestamp; a falsy value (null from the collaborator, or 0)
throws; otherwise generate the daily timestamps and enqueue the job. -/
def scheduleHistoricalDataCollection (lookup : AlchemyLookup) (now : Int)
    (token network : String) : ScheduleOutcome :=
  match getTokenCreationTimestamp lookup network with
  | none =>
      ScheduleOutcome.scheduleError
        ("Could not determine creation timestamp for token " ++ token ++
         " on " ++ network)
  | some creationTimestamp =>
      if creationTimestamp = 0 then
        ScheduleOutcome.scheduleError
          ("Could not determine creation timestamp for token " ++ token ++
           " on " ++ network)
      else
        ScheduleOutcome.jobQueued
          { token := token, network := network
            timestamps := generateDailyTimestamps creationTimestamp now
            creationTimestamp := creationTimestamp }

/-- Per-timestamp behaviour of the retried fetch
(`pRetry(fetchHistoricalPrice)`the batch processor runs): data fetched,
no data, or all retry attempts exhausted (a throw, caught by the
per-item catch). -/
inductive ItemOutcome where
  | fetchedPrice (price : ℚ)
  | noData
  | retriesExhausted
deriving Repr, DecidableEq

/-- The `TokenPrice` document persisted by the batch processor for one
fetched timestamp. -/
def collectedPoint (token network : String) (t : Int) (price : ℚ) : PricePoint :=
  { token := toLower token, network := toLower network, timestamp := t
    price := price, source := "alchemy", confidence := 1 }

/-- `queueService.processBatch`: for each timestamp, skip when an exact
store document exists, else fetch with retry and persist on success.
Every throw inside the loop body (including exhausted retries) is caught
by the per-item catch, which logs and continues, so the function always
runs the batch to the end and never throws. -/
def processBatch (fetch : Int → ItemOutcome) (token network : String) :
    List Int → List PricePoint → List PricePoint
  | [], store => store
  | t :: ts, store =>
    match findOneExact store token network t with
    | some _ => processBatch fetch token network ts store
    | none =>
      match fetch t with
      | ItemOutcome.fetchedPrice price =>
          processBatch fetch token network ts
            (store ++ [collectedPoint token network t price])
      | ItemOutcome.noData => processBatch fetch token network ts store
      | ItemOutcome.retriesExhausted => processBatch fetch token network ts store

/-- The batches `timestamps.slice(i, i + batchSize)` of the job
processor's loop, with a structural fuel argument (one unit per batch;
the list length always suffices since every batch consumes at least one
element). -/
def chunkListAux : Nat → Nat → List Int → List (List Int)
  | _, _, [] => []
  | 0, _, _ :: _ => []
  | Nat.succ fuel, n, t :: ts =>
      (t :: ts.take (n - 1)) :: chunkListAux fuel n (ts.drop (n - 1))

/-- The batches `timestamps.slice(i, i + batchSize)` of the job
processor's loop. -/
def chunkList (n : Nat) (l : List Int) : List (List Int) :=
  chunkListAux l.length n l

/-- Terminal state of a BullMQ job: completed when the processor
returns, failed when it throws. -/
inductive JobState where
  | completed
  | failed
deriving Repr, DecidableEq

/-- The result object returned by
`queueService.processPriceCollectionJob`, together with the job's
terminal state. -/
structure JobResult where
  totalTimestamps : Nat
  successful : Nat
  failed : Nat
  state : JobState
deriving Repr, DecidableEq

/-- `queueService.processPriceCollectionJob`: process the timestamps in
batches.  `successful` grows by the WHOLE batch length when
`processBatch` returns; the catch that would grow `failed` is
unreachable because `processBatch` traps every per-item error, so the
processor always returns (state completed). -/
def processPriceCollectionJob (fetch : Int → ItemOutcome) (token network : String)
    (batchSize : Nat) (timestamps : List Int) (store : List PricePoint) :
    JobResult × List PricePoint :=
  let final := (chunkList batchSize timestamps).foldl
    (fun (acc : List PricePoint × Nat × Nat) batch =>
      (processBatch fetch token network batch acc.1, acc.2.1 + batch.length, acc.2.2))
    (store, 0, 0)
  ({ totalTimestamps := timestamps.length, successful := final.2.1
     failed := final.2.2, state := JobState.completed }, final.1)

/-- The filter of `tokenPriceSchema.statics.bulkUpsert`'s updateOne:
lowercased token and network, exact timestamp, compared against the
stored document. -/
def upsertFilterMatches (p : PricePoint) (d : PricePoint) : Bool :=
  p.token == toLower d.token && p.network == toLower d.network &&
    decide (p.timestamp = d.timestamp)

/-- The document as written by the store: the schema's lowercase setters
on token and network normalise the key fields. -/
def normalizePoint (d : PricePoint) : PricePoint :=
  { d with token := toLower d.token, network := toLower d.network }

/-- One `updateOne` with `upsert: true`: `$set` the data onto the first
document matching the filter, or insert the document when none does. -/
def updateOneUpsert : List PricePoint → PricePoint → List PricePoint
  | [], d => [normalizePoint d]
  | p :: ps, d =>
      if upsertFilterMatches p d then normalizePoint d :: ps
      else p :: updateOneUpsert ps d

/-- `tokenPriceSchema.statics.bulkUpsert`: one upsert per data item. -/
def bulkUpsert (store : List PricePoint) (priceData : List PricePoint) :
    List PricePoint :=
  priceData.foldl updateOneUpsert store

/-- Two data items address the same (token, network, timestamp) store
key. -/
def sameKey (d d' : PricePoint) : Prop :=
  toLower d.token = toLower d'.token ∧ toLower d.network = toLower d'.network ∧
    d.timestamp = d'.timestamp

instance (d d' : PricePoint) : Decidable (sameKey d d') :=
  inferInstanceAs (Decidable (_ ∧ _ ∧ _))

/-! Concrete fixtures used to evaluate the embedding on the scenarios of
the specification. -/

/-- Bracket point before: t=100, price=10. -/
def pB : PricePoint :=
  { token := "t", network := "n", timestamp := 100, price := 10
    source := "alchemy", confidence := 1 }

/-- Bracket point after: t=200, price=20. -/
def pA : PricePoint :=
  { token := "t", network := "n", timestamp := 200, price := 20
    source := "alchemy", confidence := 1 }

/-- Bracket point before, at t=0, for the gap-widening scenario. -/
def pG0 : PricePoint :=
  { token := "t", network := "n", timestamp := 0, price := 10
    source := "alchemy", confidence := 1 }

/-- Bracket point one hour after `pG0`. -/
def pG1h : PricePoint :=
  { token := "t", network := "n", timestamp := 3600, price := 20
    source := "alchemy", confidence := 1 }

/-- Bracket point fifty hours after `pG0`, same price as `pG1h`. -/
def pG50h : PricePoint :=
  { token := "t", network := "n", timestamp := 180000, price := 20
    source := "alchemy", confidence := 1 }

/-- A stored document whose recorded confidence is 0 (the schema allows
confidence down to its minimum 0). -/
def pConfZero : PricePoint :=
  { token := "t", network := "n", timestamp := 5, price := 7
    source := "manual", confidence := 0 }

/-- Environment with no cache client and the zero-confidence document in
the store. -/
def envConfZero : Env :=
  { cacheEnabled := false, cache := [], store := [pConfZero]
    fetch := FetchOutcome.noData, interpSaveFails := false }

/-- Environment with no cache client and an exact document in the
store. -/
def envStoreHit : Env :=
  { cacheEnabled := false, cache := [], store := [pB]
    fetch := FetchOutcome.noData, interpSaveFails := false }

/-- Environment where the resolution must fall through to interpolation
and the interpolated point's database save throws. -/
def envSaveFail : Env :=
  { cacheEnabled := false, cache := [], store := [pB, pA]
    fetch := FetchOutcome.noData, interpSaveFails := true }

/-- Environment with nothing available at any tier. -/
def envEmpty : Env :=
  { cacheEnabled := false, cache := [], store := []
    fetch := FetchOutcome.noData, interpSaveFails := false }

/-- A cached payload coherent with the stored document `pB`. -/
def resCached : PriceResult :=
  { token := "t", network := "n", timestamp := 100, price := 10
    source := "alchemy", confidence := 1 }

/-- Environment with a functioning cache holding a coherent entry for
the key of `pB`. -/
def envCached : Env :=
  { cacheEnabled := true
    cache := [(generatePriceKey "t" "n" 100, resCached)]
    store := [pB], fetch := FetchOutcome.noData, interpSaveFails := false }

/-- Per-item fetch behaviour where the items at timestamps 3 and 7
exhaust their retries and every other item fetches price 2. -/
def retryFailFetch : Int → ItemOutcome := fun t =>
  if t = 3 ∨ t = 7 then ItemOutcome.retriesExhausted else ItemOutcome.fetchedPrice 2

/-- A batch of 10 timestamps. -/
def tenTimestamps : List Int := [1, 2, 3, 4, 5, 6, 7, 8, 9, 10]

/-- Bracket point with a price below half of the rounding granularity
of `round8`. -/
def pTinyB : PricePoint :=
  { token := "t", network := "n", timestamp := 0, price := 1/1000000000
    source := "alchemy", confidence := 1 }

/-- Bracket point two seconds after `pTinyB`, price three times as
large but still below the rounding granularity. -/
def pTinyA : PricePoint :=
  { token := "t", network := "n", timestamp := 2, price := 3/1000000000
    source := "alchemy", confidence := 1 }

/-- Bulk-upsert data item (first write). -/
def dFirst : PricePoint :=
  { token := "T", network := "N", timestamp := 9, price := 3
    source := "manual", confidence := 1 }

/-- Bulk-upsert data item with the same key as `dFirst` (last write). -/
def dSecond : PricePoint :=
  { token := "t", network := "n", timestamp := 9, price := 4
    source := "manual", confidence := 1 }

/-! Helper lemmas. -/

theorem calculateConfidence_eq (b a : PricePoint) (r : ℚ) :
    calculateConfidence b a r =
      max (1/10) (min 1
        (confBase b.price a.price r * gapFactor (a.timestamp - b.timestamp))) := by
  simp only [calculateConfidence, confBase, gapFactor]
  split_ifs <;> ring_nf

theorem confBase_nonneg (pb pa r : ℚ) : 0 ≤ confBase pb pa r := by
  simp only [confBase]
  split_ifs <;> norm_num

theorem gapFactor_antitone {g g' : Int} (h : g ≤ g') : gapFactor g' ≤ gapFactor g := by
  have hc : ((g : ℤ) : ℚ) / 3600 ≤ ((g' : ℤ) : ℚ) / 3600 := by
    apply div_le_div_of_nonneg_right _ (by norm_num)
    exact_mod_cast h
  simp only [gapFactor]
  split_ifs <;> (try norm_num) <;> linarith

theorem gapFactor_eq (g : Int) :
    gapFactor g =
      (if (48 * 3600 : Int) < g then (8/10 : ℚ)
       else if (24 * 3600 : Int) < g then (9/10) else 1) := by
  have h48 : (((g : ℤ) : ℚ) / 3600 > 48) = ((48 * 3600 : Int) < g) := by
    rw [eq_iff_iff, gt_iff_lt, lt_div_iff (by norm_num : (0:ℚ) < 3600)]
    exact ⟨fun h => by exact_mod_cast h, fun h => by exact_mod_cast h⟩
  have h24 : (((g : ℤ) : ℚ) / 3600 > 24) = ((24 * 3600 : Int) < g) := by
    rw [eq_iff_iff, gt_iff_lt, lt_div_iff (by norm_num : (0:ℚ) < 3600)]
    exact ⟨fun h => by exact_mod_cast h, fun h => by exact_mod_cast h⟩
  simp only [gapFactor, h48, h24]

/-! Claim theorems. -/

/-- Claim C1: whenever the store yields bracketing points `b` and `a`
around the target with `b.timestamp ≤ target ≤ a.timestamp`, the
interpolation service accepts any gap up to and including 7×86400
seconds and then returns
`round8 (beforePrice + ratio * (afterPrice - beforePrice))` with
`ratio = (target - beforeTs) / (afterTs - beforeTs)`, persisting the
interpolated point; a strictly larger gap yields no result. -/
theorem interpolate_linear_correct (store : List PricePoint) (token network : String)
    (t : Int) (b a : PricePoint)
    (hfind : findNearestPrices store token network t = (some b, some a))
    (hbt : b.timestamp ≤ t) (hta : t ≤ a.timestamp) :
    (a.timestamp - b.timestamp ≤ 7 * 86400 →
      interpolatePrice store false token network t =
        InterpOutcome.success (some
          ({ price := round8 (b.price + ratioOf b a t * (a.price - b.price))
             confidence := calculateConfidence b a (ratioOf b a t)
             beforePrice := b.price, afterPrice := a.price
             beforeTimestamp := b.timestamp, afterTimestamp := a.timestamp },
           store ++ [interpolatedPoint token network t (calculateInterpolation b a t)]))) ∧
    (7 * 86400 < a.timestamp - b.timestamp →
      interpolatePrice store false token network t = InterpOutcome.success none) := by
  constructor
  · intro hgap
    have hng : ¬ (a.timestamp - b.timestamp > maxGapSeconds) := by
      simp only [maxGapSeconds]; omega
    simp only [interpolatePrice, hfind]
    rw [if_neg hng]
    rfl
  · intro hgap
    have hg : a.timestamp - b.timestamp > maxGapSeconds := by
      simp only [maxGapSeconds]; omega
    simp only [interpolatePrice, hfind]
    rw [if_pos hg]

/-- Witness for C1: with before=(t=100, price=10) and after=(t=200,
price=20) the weight at t=150 is 1/2, the rounded linear value is 15,
and the service returns exactly that. -/
theorem interpolate_linear_correct_witness :
    ratioOf pB pA 150 = 1/2 ∧
    round8 (pB.price + ratioOf pB pA 150 * (pA.price - pB.price)) = 15 ∧
    interpolatePrice [pB, pA] false "t" "n" 150 =
      InterpOutcome.success (some
        ({ price := round8 (pB.price + ratioOf pB pA 150 * (pA.price - pB.price))
           confidence := calculateConfidence pB pA (ratioOf pB pA 150)
           beforePrice := pB.price, afterPrice := pA.price
           beforeTimestamp := pB.timestamp, afterTimestamp := pA.timestamp },
         [pB, pA] ++ [interpolatedPoint "t" "n" 150 (calculateInterpolation pB pA 150)])) :=
  ⟨by norm_num [ratioOf, pB, pA],
   by norm_num [round8, ratioOf, pB, pA, round_eq],
   (interpolate_linear_correct [pB, pA] "t" "n" 150 pB pA (by decide) (by decide)
     (by decide)).1 (by decide)⟩

/-- Claim C2: for every pair of bracket points and every weight, the
interpolation confidence equals the base 0.8 multiplied by the price
volatility factor (0.7 above 50 percent relative change, else 0.85
above 20 percent), the edge factor (0.9 when the weight is in the outer
tenth on either side), and the gap factor (0.8 above 48 hours, else 0.9
above 24 hours), clamped to [0.1, 1]. -/
theorem confidence_factored (b a : PricePoint) (r : ℚ) :
    calculateConfidence b a r =
      max (1/10) (min 1 ((8/10) *
        (if |a.price - b.price| / b.price > 1/2 then (7/10)
         else if |a.price - b.price| / b.price > 1/5 then (85/100) else 1) *
        (if r < 1/10 ∨ r > 9/10 then (9/10) else 1) *
        (if (48 * 3600 : Int) < a.timestamp - b.timestamp then (8/10)
         else if (24 * 3600 : Int) < a.timestamp - b.timestamp then (9/10) else 1))) := by
  rw [calculateConfidence_eq, gapFactor_eq]
  rfl

/-- Claim C7: holding both bracket prices and the weight fixed, a wider
bracket gap never increases the confidence. -/
theorem confidence_gap_antitone (b a a' : PricePoint) (r : ℚ)
    (hp : a.price = a'.price)
    (hg : a.timestamp - b.timestamp ≤ a'.timestamp - b.timestamp) :
    calculateConfidence b a' r ≤ calculateConfidence b a r := by
  rw [calculateConfidence_eq, calculateConfidence_eq, ← hp]
  exact max_le_max le_rfl (min_le_min le_rfl
    (mul_le_mul_of_nonneg_left (gapFactor_antitone hg) (confBase_nonneg _ _ _)))

/-- Witness for C7: widening the gap from 1 hour to 50 hours with the
same prices does not increase the confidence. -/
theorem confidence_gap_antitone_witness :
    pG1h.price = pG50h.price ∧
    pG1h.timestamp - pG0.timestamp ≤ pG50h.timestamp - pG0.timestamp ∧
    calculateConfidence pG0 pG50h (1/2) ≤ calculateConfidence pG0 pG1h (1/2) :=
  ⟨by decide, by decide,
   confidence_gap_antitone pG0 pG1h pG50h (1/2) (by decide) (by decide)⟩

theorem round8_bounds (x : ℚ) :
    x - 1/200000000 ≤ round8 x ∧ round8 x ≤ x + 1/200000000 := by
  have h := abs_sub_round (x * 100000000)
  rw [abs_le] at h
  obtain ⟨h1, h2⟩ := h
  constructor
  · rw [round8, le_div_iff (by norm_num : (0:ℚ) < 100000000)]
    linarith
  · rw [round8, div_le_iff (by norm_num : (0:ℚ) < 100000000)]
    linarith

theorem round8_nonneg (x : ℚ) (hx : 0 ≤ x) : 0 ≤ round8 x := by
  have hfl : (0 : ℤ) ≤ round (x * 100000000) := by
    rw [round_eq]
    have := Int.floor_le_floor (α := ℚ)
      (show (1:ℚ)/2 ≤ x * 100000000 + 1/2 by nlinarith)
    calc (0 : ℤ) = ⌊(1:ℚ)/2⌋ := by norm_num
    _ ≤ ⌊x * 100000000 + 1/2⌋ := this
  rw [round8]
  apply div_nonneg _ (by norm_num : (0:ℚ) ≤ 100000000)
  exact_mod_cast hfl

/-- Claim C10 (amended): the unrounded linear interpolation value lies
between the bracket prices; after rounding to 8 decimals the returned
price can leave that interval by at most half of the rounding
granularity (1/200000000), and it is still non-negative whenever both
bracket prices are non-negative. -/
theorem interpolation_price_bounds (b a : PricePoint) (t : Int)
    (hlt : b.timestamp < a.timestamp) (hbt : b.timestamp ≤ t) (hta : t ≤ a.timestamp) :
    min b.price a.price ≤ rawInterpolation b a t ∧
    rawInterpolation b a t ≤ max b.price a.price ∧
    min b.price a.price - 1/200000000 ≤ (calculateInterpolation b a t).price ∧
    (calculateInterpolation b a t).price ≤ max b.price a.price + 1/200000000 ∧
    (0 ≤ b.price → 0 ≤ a.price → 0 ≤ (calculateInterpolation b a t).price) := by
  have hden : (0 : ℚ) < ((a.timestamp - b.timestamp : ℤ) : ℚ) := by
    exact_mod_cast Int.sub_pos.mpr hlt
  have hr0 : 0 ≤ ratioOf b a t := by
    apply div_nonneg _ (le_of_lt hden)
    exact_mod_cast Int.sub_nonneg.mpr hbt
  have hr1 : ratioOf b a t ≤ 1 := by
    rw [ratioOf, div_le_one hden]
    exact_mod_cast Int.sub_le_sub_right hta b.timestamp
  have hpr : (calculateInterpolation b a t).price = round8 (rawInterpolation b a t) := rfl
  have hlo : min b.price a.price ≤ rawInterpolation b a t := by
    rcases le_total b.price a.price with h | h
    · rw [min_eq_left h, rawInterpolation]
      nlinarith
    · rw [min_eq_right h, rawInterpolation]
      nlinarith
  have hhi : rawInterpolation b a t ≤ max b.price a.price := by
    rcases le_total b.price a.price with h | h
    · rw [max_eq_right h, rawInterpolation]
      nlinarith
    · rw [max_eq_left h, rawInterpolation]
      nlinarith
  have hrb := round8_bounds (rawInterpolation b a t)
  refine ⟨hlo, hhi, ?_, ?_, ?_⟩
  · rw [hpr]; linarith [hrb.1]
  · rw [hpr]; linarith [hrb.2]
  · intro hb ha
    rw [hpr]
    apply round8_nonneg
    have : 0 ≤ min b.price a.price := le_min hb ha
    linarith

/-- Witness for C10: with brackets (t=100, price=10) and (t=200,
price=20) and target 150, the interpolated price stays within the
bracket range up to the rounding slack and is non-negative. -/
theorem interpolation_price_bounds_witness :
    pB.timestamp < pA.timestamp ∧ pB.timestamp ≤ (150 : Int) ∧
    (150 : Int) ≤ pA.timestamp ∧
    min pB.price pA.price ≤ rawInterpolation pB pA 150 ∧
    rawInterpolation pB pA 150 ≤ max pB.price pA.price ∧
    0 ≤ (calculateInterpolation pB pA 150).price :=
  ⟨by decide, by decide, by decide,
   (interpolation_price_bounds pB pA 150 (by decide) (by decide) (by decide)).1,
   (interpolation_price_bounds pB pA 150 (by decide) (by decide) (by decide)).2.1,
   (interpolation_price_bounds pB pA 150 (by decide) (by decide) (by decide)).2.2.2.2
     (by norm_num [pB]) (by norm_num [pA])⟩

/-- Counterexample for C10: with bracket prices 1e-9 and 3e-9 and the
target midway, the rounded interpolated price is 0, strictly below the
smaller bracket price. -/
theorem interpolation_price_below_bracket :
    (calculateInterpolation pTinyB pTinyA 1).price = 0 ∧
    min pTinyB.price pTinyA.price = 1/1000000000 ∧
    (calculateInterpolation pTinyB pTinyA 1).price < min pTinyB.price pTinyA.price ∧
    pTinyB.timestamp < pTinyA.timestamp ∧ pTinyB.timestamp ≤ 1 ∧
    (1 : Int) ≤ pTinyA.timestamp := by
  refine ⟨?_, ?_, ?_, by decide, by decide, by decide⟩ <;>
    norm_num [calculateInterpolation, ratioOf, round8, pTinyB, pTinyA, round_eq]

/-- Claim C3 (amended): when the cache tier misses and the store holds
an exact document for the key, the resolution returns that document's
price and source, with its recorded confidence unless the recorded
confidence is 0 (a falsy value, echoed as 1 by `confidence || 1`); the
external fetcher is never invoked and the store is unchanged. -/
theorem store_tier_short_circuit (env : Env) (token network : String) (t : Int)
    (p : PricePoint)
    (hcache : (if env.cacheEnabled then
        cacheGet env.cache (generatePriceKey token network t) else none) = none)
    (hstore : findOneExact env.store token network t = some p) :
    (resolvePrice env token network t).result =
      ResolveResult.ok
        { token := p.token, network := p.network, timestamp := p.timestamp
          price := p.price, source := p.source
          confidence := if p.confidence = 0 then 1 else p.confidence } ∧
    (resolvePrice env token network t).fetchCalls = 0 ∧
    (resolvePrice env token network t).store = env.store := by
  simp only [resolvePrice, hcache, hstore]
  exact ⟨trivial, trivial, trivial⟩

/-- Witness for C3: with no cache client and `pB` stored exactly, the
resolution echoes `pB` and performs zero fetch calls. -/
theorem store_tier_short_circuit_witness :
    (if envStoreHit.cacheEnabled then
        cacheGet envStoreHit.cache (generatePriceKey "t" "n" 100) else none) = none ∧
    findOneExact envStoreHit.store "t" "n" 100 = some pB ∧
    (resolvePrice envStoreHit "t" "n" 100).result =
      ResolveResult.ok
        { token := pB.token, network := pB.network, timestamp := pB.timestamp
          price := pB.price, source := pB.source
          confidence := if pB.confidence = 0 then 1 else pB.confidence } ∧
    (resolvePrice envStoreHit "t" "n" 100).fetchCalls = 0 ∧
    (resolvePrice envStoreHit "t" "n" 100).store = envStoreHit.store :=
  ⟨rfl, by decide,
   (store_tier_short_circuit envStoreHit "t" "n" 100 pB rfl (by decide)).1,
   (store_tier_short_circuit envStoreHit "t" "n" 100 pB rfl (by decide)).2.1,
   (store_tier_short_circuit envStoreHit "t" "n" 100 pB rfl (by decide)).2.2⟩

/-- Counterexample for C3: a stored document with recorded confidence 0
is returned with confidence 1, not with its recorded confidence. -/
theorem store_tier_confidence_not_echoed :
    (resolvePrice envConfZero "t" "n" 5).result =
      ResolveResult.ok
        { token := "t", network := "n", timestamp := 5, price := 7
          source := "manual", confidence := 1 } ∧
    findOneExact envConfZero.store "t" "n" 5 = some pConfZero ∧
    pConfZero.confidence = 0 ∧
    (1 : ℚ) ≠ 0 ∧
    (resolvePrice envConfZero "t" "n" 5).fetchCalls = 0 := by
  refine ⟨by decide, by decide, by decide, by norm_num, by decide⟩

/-- The interpolation service cannot throw when its database save
succeeds: every path returns a success outcome. -/
theorem interpolatePrice_no_throw (store : List PricePoint) (token network : String)
    (t : Int) :
    ∃ o, interpolatePrice store false token network t = InterpOutcome.success o := by
  unfold interpolatePrice
  split
  · split
    · exact ⟨none, rfl⟩
    · exact ⟨_, rfl⟩
  · exact ⟨none, rfl⟩

/-- Claim C5 (amended): when the interpolation write-back save does not
throw, the only error a resolution can propagate is the no-price-data
error; a thrown external fetch error is caught and the resolution
proceeds exactly as when the fetcher returns no data. -/
theorem resolve_error_policy (env : Env) (token network : String) (t : Int)
    (hsave : env.interpSaveFails = false) :
    ((∃ r, (resolvePrice env token network t).result = ResolveResult.ok r) ∨
      (resolvePrice env token network t).result =
        ResolveResult.failure (OracleError.noPriceData token network t)) ∧
    (∀ msg, (resolvePrice { env with fetch := FetchOutcome.fetchError msg }
        token network t).result =
      (resolvePrice { env with fetch := FetchOutcome.noData } token network t).result) := by
  obtain ⟨ce, cch, st, f, sv⟩ := env
  replace hsave : sv = false := hsave
  subst hsave
  constructor
  · simp only [resolvePrice]
    cases hc : (if ce then cacheGet cch (generatePriceKey token network t) else none) with
    | some cached => exact Or.inl ⟨_, rfl⟩
    | none =>
      cases hs : findOneExact st token network t with
      | some p => exact Or.inl ⟨_, rfl⟩
      | none =>
        cases f with
        | fetched price => exact Or.inl ⟨_, rfl⟩
        | fetchError msg =>
          obtain ⟨o, ho⟩ := interpolatePrice_no_throw st token network t
          rw [ho]
          cases o with
          | some pr => exact Or.inl ⟨_, rfl⟩
          | none => exact Or.inr rfl
        | noData =>
          obtain ⟨o, ho⟩ := interpolatePrice_no_throw st token network t
          rw [ho]
          cases o with
          | some pr => exact Or.inl ⟨_, rfl⟩
          | none => exact Or.inr rfl
  · intro msg
    rfl

/-- Witness for C5: with nothing available at any tier and a healthy
save, the propagated error is the no-price-data error, and a fetch
error leaves the outcome unchanged. -/
theorem resolve_error_policy_witness :
    envEmpty.interpSaveFails = false ∧
    ((∃ r, (resolvePrice envEmpty "t" "n" 5).result = ResolveResult.ok r) ∨
      (resolvePrice envEmpty "t" "n" 5).result =
        ResolveResult.failure (OracleError.noPriceData "t" "n" 5)) ∧
    (resolvePrice { envEmpty with fetch := FetchOutcome.fetchError "boom" }
        "t" "n" 5).result =
      (resolvePrice { envEmpty with fetch := FetchOutcome.noData } "t" "n" 5).result :=
  ⟨rfl, (resolve_error_policy envEmpty "t" "n" 5 rfl).1,
   (resolve_error_policy envEmpty "t" "n" 5 rfl).2 "boom"⟩

/-- Counterexample for C5: when the interpolation tier's write-back
save throws, the raw internal error propagates to the caller instead of
the no-price-data error. -/
theorem interpolation_error_propagates :
    (resolvePrice envSaveFail "t" "n" 150).result =
      ResolveResult.failure (OracleError.internalError "interpolation save failed") ∧
    OracleError.internalError "interpolation save failed" ≠
      OracleError.noPriceData "t" "n" 150 := by
  exact ⟨by decide, by decide⟩

/-- Claim C6 (amended): when the token-metadata collaborator THROWS,
the scheduler falls back to the hardcoded per-network default (Ethereum
launch for ethereum, the Polygon constant for every other network — two
distinct constants), still generates the daily timestamps and enqueues
the job; but when the collaborator returns no creation timestamp (the
absent case), the schedule request fails instead of falling back. -/
theorem schedule_fallback_on_error (msg : String) (now : Int) (token network : String) :
    (scheduleHistoricalDataCollection (AlchemyLookup.failure msg) now token network =
      ScheduleOutcome.jobQueued
        { token := token, network := network
          timestamps := generateDailyTimestamps
            (if toLower network == "ethereum" then ethereumLaunchTimestamp
             else polygonDefaultTimestamp) now
          creationTimestamp :=
            if toLower network == "ethereum" then ethereumLaunchTimestamp
            else polygonDefaultTimestamp }) ∧
    ethereumLaunchTimestamp ≠ polygonDefaultTimestamp ∧
    (∀ tok net, scheduleHistoricalDataCollection AlchemyLookup.absent now tok net =
      ScheduleOutcome.scheduleError
        ("Could not determine creation timestamp for token " ++ tok ++
         " on " ++ net)) := by
  refine ⟨?_, by decide, fun tok net => rfl⟩
  cases h : toLower network == "ethereum" <;>
    simp [scheduleHistoricalDataCollection, getTokenCreationTimestamp, h,
      ethereumLaunchTimestamp, polygonDefaultTimestamp]

/-- Counterexample for C6: when the collaborator reports the absent
case (null, no creation timestamp found), the scheduler does not fall
back to the network default: the schedule request fails with an error
instead of enqueueing a CollectionJob. -/
theorem schedule_fails_on_absent :
    scheduleHistoricalDataCollection AlchemyLookup.absent 1700000000 "tok" "ethereum" =
      ScheduleOutcome.scheduleError
        "Could not determine creation timestamp for token tok on ethereum" ∧
    getTokenCreationTimestamp AlchemyLookup.absent "ethereum" = none := by
  exact ⟨rfl, rfl⟩

theorem chunkListAux_length_sum :
    ∀ (fuel n : Nat) (l : List Int), l.length ≤ fuel →
      ((chunkListAux fuel n l).map List.length).sum = l.length
  | _, _, [], _ => by simp [chunkListAux]
  | 0, _, t :: ts, h => by simp at h
  | Nat.succ fuel, n, t :: ts, h => by
      rw [chunkListAux]
      simp only [List.map_cons, List.sum_cons, List.length_cons, List.length_take]
      rw [chunkListAux_length_sum fuel n (ts.drop (n - 1))
        (by simp only [List.length_drop]; simp at h; omega)]
      simp only [List.length_drop]
      omega

theorem processJob_fold_tallies (fetch : Int → ItemOutcome) (token network : String) :
    ∀ (chs : List (List Int)) (s : List PricePoint) (m k : Nat),
      (chs.foldl
        (fun (acc : List PricePoint × Nat × Nat) batch =>
          (processBatch fetch token network batch acc.1, acc.2.1 + batch.length, acc.2.2))
        (s, m, k)).2 = (m + (chs.map List.length).sum, k) := by
  intro chs
  induction chs with
  | nil => intro s m k; simp
  | cons c cs ih =>
    intro s m k
    simp only [List.foldl_cons, List.map_cons, List.sum_cons]
    rw [ih, Nat.add_assoc]

theorem processBatch_skips_failures (fetch : Int → ItemOutcome) (token network : String) :
    ∀ (ts : List Int) (s : List PricePoint),
      processBatch fetch token network ts s =
        processBatch fetch token network
          (ts.filter (fun u => !(fetch u == ItemOutcome.retriesExhausted))) s := by
  intro ts
  induction ts with
  | nil => intro s; rfl
  | cons t ts ih =>
    intro s
    rw [List.filter_cons]
    by_cases hf : fetch t = ItemOutcome.retriesExhausted
    · have hc : (!(fetch t == ItemOutcome.retriesExhausted)) = false := by simp [hf]
      rw [hc]
      simp only [Bool.false_eq_true, if_false]
      simp only [processBatch]
      cases hex : findOneExact s token network t with
      | some p => exact ih s
      | none => rw [hf]; exact ih s
    · have hc : (!(fetch t == ItemOutcome.retriesExhausted)) = true := by simp [hf]
      rw [hc]
      simp only [if_true]
      simp only [processBatch]
      cases hex : findOneExact s token network t with
      | some p => exact ih s
      | none =>
        cases hfe : fetch t with
        | fetchedPrice price => exact ih (s ++ [collectedPoint token network t price])
        | noData => exact ih s
        | retriesExhausted => exact absurd hfe hf

/-- Claim C4 (amended): items whose retried fetch exhausts its attempts
are logged and skipped without affecting the rest — processing a batch
is the same as processing the batch with those items removed — and the
job always ends completed; but the final tallies are batch-granular,
not per-item: `successful` counts every timestamp of the job and
`failed` stays 0, because the per-item catch inside `processBatch`
swallows retry exhaustion before the job-level counters can see it. -/
theorem job_batch_resilience (fetch : Int → ItemOutcome) (token network : String)
    (batchSize : Nat) (timestamps : List Int) (store : List PricePoint) :
    (processPriceCollectionJob fetch token network batchSize timestamps store).1.state =
      JobState.completed ∧
    (processPriceCollectionJob fetch token network batchSize timestamps store).1.successful =
      timestamps.length ∧
    (processPriceCollectionJob fetch token network batchSize timestamps store).1.failed = 0 ∧
    (∀ (ts : List Int) (s : List PricePoint),
      processBatch fetch token network ts s =
        processBatch fetch token network
          (ts.filter (fun u => !(fetch u == ItemOutcome.retriesExhausted))) s) := by
  have h := processJob_fold_tallies fetch token network
    (chunkList batchSize timestamps) store 0 0
  have hsum : ((chunkList batchSize timestamps).map List.length).sum =
      timestamps.length :=
    chunkListAux_length_sum timestamps.length batchSize timestamps le_rfl
  refine ⟨rfl, ?_, ?_, processBatch_skips_failures fetch token network⟩
  · simp only [processPriceCollectionJob]
    rw [h, hsum]
    simp
  · simp only [processPriceCollectionJob]
    rw [h]

/-- Counterexample for C4: for a batch of 10 timestamps where the items
at timestamps 3 and 7 exhaust their retries, the remaining 8 items are
fetched and persisted and the job completes, but the final tallies are
successful=10, failed=0 — not succeeded=8, failed=2 as claimed. -/
theorem job_tallies_batch_granular :
    (processPriceCollectionJob retryFailFetch "t" "n" 10 tenTimestamps []).1 =
      { totalTimestamps := 10, successful := 10, failed := 0
        state := JobState.completed } ∧
    ((processPriceCollectionJob retryFailFetch "t" "n" 10 tenTimestamps []).2.map
        PricePoint.timestamp) = [1, 2, 4, 5, 6, 8, 9, 10] ∧
    retryFailFetch 3 = ItemOutcome.retriesExhausted ∧
    retryFailFetch 7 = ItemOutcome.retriesExhausted ∧
    (10 : Nat) ≠ 8 ∧ (0 : Nat) ≠ 2 := by
  exact ⟨by decide, by decide, by decide, by decide, by decide, by decide⟩

theorem sameAnswer_refl (r : ResolveResult) : sameAnswer r r := by
  cases r with
  | ok a => exact ⟨rfl, rfl⟩
  | failure e => trivial

theorem resolve_result_ignores_cache_when_miss (cch : List (String × PriceResult))
    (st : List PricePoint) (f : FetchOutcome) (sv : Bool)
    (token network : String) (t : Int)
    (hmiss : cacheGet cch (generatePriceKey token network t) = none) :
    (resolvePrice ⟨true, cch, st, f, sv⟩ token network t).result =
      (resolvePrice ⟨false, cch, st, f, sv⟩ token network t).result := by
  unfold resolvePrice
  dsimp only
  rw [if_pos rfl, hmiss]
  cases hst : findOneExact st token network t with
  | some p => rfl
  | none =>
    cases f with
    | fetched price => rfl
    | fetchError msg =>
      cases hi : interpolatePrice st sv token network t with
      | failure m => rfl
      | success o => cases o with
        | some pr => rfl
        | none => rfl
    | noData =>
      cases hi : interpolatePrice st sv token network t with
      | failure m => rfl
      | success o => cases o with
        | some pr => rfl
        | none => rfl

/-- Claim C8: when every cached entry for the key is coherent with the
store (which is the only kind of entry the orchestrator itself writes),
disabling the cache client entirely does not change the returned price
or confidence of a resolution; only the "cache" source tag can
disappear. -/
theorem cache_transparency (env : Env) (token network : String) (t : Int)
    (hcoh : cacheCoherent env token network t = true) :
    sameAnswer (resolvePrice env token network t).result
      (resolvePrice { env with cacheEnabled := false } token network t).result := by
  obtain ⟨ce, cch, st, f, sv⟩ := env
  cases ce with
  | false => exact sameAnswer_refl _
  | true =>
    change sameAnswer (resolvePrice ⟨true, cch, st, f, sv⟩ token network t).result
      (resolvePrice ⟨false, cch, st, f, sv⟩ token network t).result
    unfold cacheCoherent at hcoh
    cases hget : cacheGet cch (generatePriceKey token network t) with
    | none =>
      rw [resolve_result_ignores_cache_when_miss cch st f sv token network t hget]
      exact sameAnswer_refl _
    | some res =>
      rw [hget] at hcoh
      cases hstore : findOneExact st token network t with
      | none => rw [hstore] at hcoh; exact absurd hcoh (by simp)
      | some p =>
        rw [hstore] at hcoh
        rw [Bool.and_eq_true, beq_iff_eq, beq_iff_eq] at hcoh
        have hres : (resolvePrice ⟨true, cch, st, f, sv⟩ token network t).result =
            ResolveResult.ok { res with source := "cache" } := by
          unfold resolvePrice
          dsimp only
          rw [if_pos rfl, hget]
        have hres' : (resolvePrice ⟨false, cch, st, f, sv⟩ token network t).result =
            ResolveResult.ok
              { token := p.token, network := p.network, timestamp := p.timestamp
                price := p.price, source := p.source
                confidence := if p.confidence = 0 then 1 else p.confidence } := by
          unfold resolvePrice
          dsimp only
          rw [if_neg Bool.false_ne_true, hstore]
        rw [hres, hres']
        exact ⟨hcoh.1, hcoh.2⟩

/-- Witness for C8: a coherent cached entry for the key of `pB` yields
the same price and confidence with and without the cache client. -/
theorem cache_transparency_witness :
    cacheCoherent envCached "t" "n" 100 = true ∧
    sameAnswer (resolvePrice envCached "t" "n" 100).result
      (resolvePrice { envCached with cacheEnabled := false } "t" "n" 100).result :=
  ⟨by decide, cache_transparency envCached "t" "n" 100 (by decide)⟩

theorem sameKey_refl (d : PricePoint) : sameKey d d := ⟨rfl, rfl, rfl⟩

theorem upsertFilterMatches_congr {d d' : PricePoint} (h : sameKey d d')
    (p : PricePoint) : upsertFilterMatches p d = upsertFilterMatches p d' := by
  obtain ⟨h1, h2, h3⟩ := h
  simp only [upsertFilterMatches, h1, h2, h3]

theorem matches_normalize {d d' : PricePoint} (h : sameKey d d') :
    upsertFilterMatches (normalizePoint d) d' = true := by
  obtain ⟨h1, h2, h3⟩ := h
  simp [upsertFilterMatches, normalizePoint, h1, h2, h3]

theorem upsert_twice_unique : ∀ (store : List PricePoint) (d d' : PricePoint),
    (store.filter (fun p => upsertFilterMatches p d)).length ≤ 1 →
    sameKey d d' →
    (updateOneUpsert (updateOneUpsert store d) d').filter
      (fun p => upsertFilterMatches p d') = [normalizePoint d'] := by
  intro store
  induction store with
  | nil =>
    intro d d' _ hkey
    simp [updateOneUpsert, matches_normalize hkey, matches_normalize (sameKey_refl d')]
  | cons p ps ih =>
    intro d d' hinv hkey
    cases hm : upsertFilterMatches p d with
    | true =>
      have hps : ps.filter (fun q => upsertFilterMatches q d) = [] := by
        simp only [List.filter_cons] at hinv
        simp only [hm, if_true, List.length_cons] at hinv
        exact List.length_eq_zero.mp (by omega)
      have hps' : ps.filter (fun q => upsertFilterMatches q d') = [] := by
        rw [← hps]
        exact List.filter_congr (fun x _ => (upsertFilterMatches_congr hkey x).symm)
      simp [updateOneUpsert, hm, matches_normalize hkey,
        matches_normalize (sameKey_refl d'), hps']
    | false =>
      have hm' : upsertFilterMatches p d' = false := by
        rw [← upsertFilterMatches_congr hkey p]; exact hm
      have hinv' : (ps.filter (fun q => upsertFilterMatches q d)).length ≤ 1 := by
        simp only [List.filter_cons] at hinv
        simpa [hm] using hinv
      simp only [updateOneUpsert, hm, Bool.false_eq_true, if_false, hm']
      rw [List.filter_cons]
      simp only [hm', Bool.false_eq_true, if_false]
      exact ih d d' hinv' hkey

/-- Claim C9: starting from a store with at most one document under the
key (the collection's uniqueness invariant), bulk-upserting two data
items with the same (token, network, timestamp) key leaves exactly one
document under that key, holding the value of the last write. -/
theorem bulk_upsert_last_write_wins (store : List PricePoint) (d d' : PricePoint)
    (hinv : (store.filter (fun p => upsertFilterMatches p d)).length ≤ 1)
    (hkey : sameKey d d') :
    (bulkUpsert (bulkUpsert store [d]) [d']).filter
      (fun p => upsertFilterMatches p d') = [normalizePoint d'] ∧
    ((bulkUpsert (bulkUpsert store [d]) [d']).filter
      (fun p => upsertFilterMatches p d')).length = 1 := by
  have h := upsert_twice_unique store d d' hinv hkey
  exact ⟨h, by rw [show bulkUpsert (bulkUpsert store [d]) [d'] =
    updateOneUpsert (updateOneUpsert store d) d' from rfl, h]; rfl⟩

/-- Witness for C9: upserting price 3 then price 4 under the same key
(spelled in different letter case) leaves exactly the single normalised
document with price 4. -/
theorem bulk_upsert_last_write_wins_witness :
    (([] : List PricePoint).filter (fun p => upsertFilterMatches p dFirst)).length ≤ 1 ∧
    sameKey dFirst dSecond ∧
    (bulkUpsert (bulkUpsert [] [dFirst]) [dSecond]).filter
      (fun p => upsertFilterMatches p dSecond) = [normalizePoint dSecond] ∧
    ((bulkUpsert (bulkUpsert [] [dFirst]) [dSecond]).filter
      (fun p => upsertFilterMatches p dSecond)).length = 1 :=
  ⟨by decide, by decide,
   (bulk_upsert_last_write_wins [] dFirst dSecond (by decide) (by decide)).1,
   (bulk_upsert_last_write_wins [] dFirst dSecond (by decide) (by decide)).2⟩

end Oracle
